/-
Verification of the octopus-mini-dashboard price-reconciliation and
chart-layout logic, shallowly embedded from `dashboard.py` and
`dashboard-snap.py`.

Prices are embedded as exact rationals; Python's `int()` truncation and
integer `range` are embedded explicitly.  Points mirror the dicts the
program builds: `hour`, `minute`, `price`, `timestamp`, `date`.
-/
import Mathlib

namespace Octopus

/-- Calendar date as held in the point dicts (`valid_from_local.date()`). -/
structure Date where
  year : Nat
  month : Nat
  day : Nat
deriving DecidableEq, Repr

/-- Timezone-aware local datetime as held in the point dicts
(`valid_from_local`): wall-clock fields plus the UTC-offset fields that
`isoformat` prints (sign, hours, minutes). -/
structure DateTimeTz where
  year : Nat
  month : Nat
  day : Nat
  hour : Nat
  minute : Nat
  second : Nat
  tzNeg : Bool
  tzH : Nat
  tzM : Nat
deriving DecidableEq, Repr

/-- Source: `datetime.date()`: the calendar-date part of a datetime. -/
def DateTimeTz.dateOf (t : DateTimeTz) : Date :=
  ⟨t.year, t.month, t.day⟩

/-- One half-hourly price point, mirroring the dict
`{'hour': .., 'minute': .., 'price': .., 'timestamp': .., 'date': ..}`
built in `fetch_agile_prices`. -/
structure PricePoint where
  hour : Nat
  minute : Nat
  price : ℚ
  timestamp : DateTimeTz
  date : Date
deriving DecidableEq, Repr

/-- Python `int()` on a rational: truncation toward zero. -/
def pyInt (q : ℚ) : ℤ :=
  if 0 ≤ q then ⌊q⌋ else ⌈q⌉

/-- Python `range(a, b, 10)` on integers (step 10). -/
def pyRange10 (a b : ℤ) : List ℤ :=
  (List.range ((b - a + 9).toNat / 10)).map (fun k : Nat => a + 10 * (k : ℤ))

/-- Python `min` over a non-empty list (`min(p['price'] for p in ...)`);
0 on the empty list, which every caller guards against. -/
def listMin : List ℚ → ℚ
  | [] => 0
  | q :: qs => qs.foldl min q

/-- Python `max` over a non-empty list; 0 on the empty list. -/
def listMax : List ℚ → ℚ
  | [] => 0
  | q :: qs => qs.foldl max q

/-- Source: `current_minute // 30 * 30`: the minute of the current half-hour slot. -/
def slotMinute (nowM : Nat) : Nat :=
  nowM / 30 * 30

/-! ## Reconciler (`dashboard.py`, `draw_dashboard` lines 307–316)

`has_tomorrow = bool(tomorrow_prices)`;
`if has_tomorrow and len(today_prices) >= 24: today_prices = today_prices[24:]`;
`display_prices = today_prices + tomorrow_prices`. -/

/-- The (possibly trimmed) today series kept for display. -/
def trimToday (today tomorrow : List PricePoint) : List PricePoint :=
  if tomorrow ≠ [] ∧ 24 ≤ today.length then today.drop 24 else today

/-- Source: `display_prices`: trimmed today followed by all of tomorrow. -/
def displayWindow (today tomorrow : List PricePoint) : List PricePoint :=
  trimToday today tomorrow ++ tomorrow

/-- Source: `tomorrow_start_idx = len(today_prices)` (after the trim). -/
def tomorrowStartIdx (today tomorrow : List PricePoint) : Nat :=
  (trimToday today tomorrow).length

/-! ## Statistics (`dashboard-snap.py`, `draw_dashboard` lines 303–332)

Statistics are computed from `all_today`, the today-dated subset of the
input, never from the trimmed display window. -/

/-- Source: `all_today = [p for p in agile_prices if p.get('date', today) == today]`. -/
def allToday (agile : List PricePoint) (today : Date) : List PricePoint :=
  agile.filter (fun p => p.date = today)

/-- Source: `min_price = min(p['price'] for p in all_today) if all_today else 0`. -/
def minPrice (agile : List PricePoint) (today : Date) : ℚ :=
  match (allToday agile today).map (fun p => p.price) with
  | [] => 0
  | q :: qs => qs.foldl min q

/-- Source: `max_price = max(p['price'] for p in all_today) if all_today else 0`. -/
def maxPrice (agile : List PricePoint) (today : Date) : ℚ :=
  match (allToday agile today).map (fun p => p.price) with
  | [] => 0
  | q :: qs => qs.foldl max q

/-- Source: `current_price = next((p['price'] for p in all_today if p['hour'] ==
current_hour and p['minute'] == current_minute // 30 * 30), None)`. -/
def currentPrice (agile : List PricePoint) (today : Date)
    (nowH nowM : Nat) : Option ℚ :=
  ((allToday agile today).find?
      (fun p => p.hour == nowH && p.minute == slotMinute nowM)).map
    (fun p => p.price)

/-! ## Chart layout (`dashboard.py` lines 370–448)

Fixed geometry: `chart_y = 90`, `chart_height = 130`, `chart_x = 30`,
`chart_width = 285`. -/

def chartHeight : ℤ := 130
def chartY : ℤ := 90
def chartX : ℤ := 30
def chartWidth : Nat := 285

/-- Source: `chart_min_price = min(0, actual_min)` over the display window. -/
def chartMinP (prices : List ℚ) : ℚ :=
  min 0 (listMin prices)

/-- Source: `chart_max_price = max(...)` over the display window. -/
def chartMaxP (prices : List ℚ) : ℚ :=
  listMax prices

/-- Source: `price_range = chart_max - chart_min if chart_max != chart_min else 1`. -/
def priceRange (prices : List ℚ) : ℚ :=
  if chartMaxP prices ≠ chartMinP prices
  then chartMaxP prices - chartMinP prices else 1

/-- Source: `bar_width = chart_width // num_bars`. -/
def barWidth (numBars : Nat) : Nat :=
  chartWidth / numBars

/-- Source: `bar_height = int((price - chart_min_price) / price_range * chart_height)`. -/
def barHeight (prices : List ℚ) (price : ℚ) : ℤ :=
  pyInt ((price - chartMinP prices) / priceRange prices * (chartHeight : ℚ))

/-- Bar left edge: `x = chart_x + i * bar_width`. -/
def barX (numBars i : Nat) : ℤ :=
  chartX + (i : ℤ) * (barWidth numBars : ℤ)

/-- Bar top edge: `y = chart_y + chart_height - bar_height`. -/
def barTop (prices : List ℚ) (price : ℚ) : ℤ :=
  chartY + chartHeight - barHeight prices price

/-- Bar bottom edge: `chart_y + chart_height`. -/
def barBottom : ℤ := chartY + chartHeight

/-- Bar right edge: `bar_right = x + bar_width - 2`. -/
def barRight (numBars i : Nat) : ℤ :=
  barX numBars i + (barWidth numBars : ℤ) - 2

/-- Source: `is_current = hour == current_hour and minute == current_minute // 30 * 30
and i < tomorrow_start_idx` at the `i`-th bar of the display window. -/
def markerAt (today tomorrow : List PricePoint) (nowH nowM : Nat)
    (i : Nat) : Bool :=
  match (displayWindow today tomorrow).get? i with
  | some p =>
      p.hour == nowH && p.minute == slotMinute nowM &&
        i < tomorrowStartIdx today tomorrow
  | none => false

/-! ## Gridlines

`y_pos = chart_y + chart_height - int((level - chart_min) / price_range *
chart_height)`, then drawn only when `chart_y <= y_pos <= chart_y +
chart_height`. -/

/-- Gridline vertical position at integer price level `g` (both variants). -/
def gridY (prices : List ℚ) (g : ℤ) : ℤ :=
  chartY + chartHeight -
    pyInt (((g : ℚ) - chartMinP prices) / priceRange prices * (chartHeight : ℚ))

/-- Source: `dashboard-snap.py` line 414: `min_grid = int(chart_min_price //
gridline_interval) * gridline_interval`. -/
def minGrid (prices : List ℚ) : ℤ :=
  ⌊chartMinP prices / 10⌋ * 10

/-- Source: `dashboard-snap.py` line 415: `max_grid = int(chart_max_price //
gridline_interval + 1) * gridline_interval`. -/
def maxGrid (prices : List ℚ) : ℤ :=
  (⌊chartMaxP prices / 10⌋ + 1) * 10

/-- Source: `dashboard-snap.py` lines 417–425: level `g` is generated by
`range(min_grid, max_grid + 1, 10)` and drawn when
`chart_min <= g <= chart_max` and `y_pos` is within the chart. -/
def snapGridEmitted (prices : List ℚ) (g : ℤ) : Bool :=
  decide (g ∈ pyRange10 (minGrid prices) (maxGrid prices + 1)) &&
    decide (chartMinP prices ≤ (g : ℚ) ∧ (g : ℚ) ≤ chartMaxP prices) &&
    decide (chartY ≤ gridY prices g ∧ gridY prices g ≤ chartY + chartHeight)

/-- Source: `dashboard.py` lines 403–412: level `g` is generated by
`range(0, int(chart_max_price) + 10, 10)` and drawn when
`g >= chart_min_price` and `y_pos` is within the chart. -/
def dashGridEmitted (prices : List ℚ) (g : ℤ) : Bool :=
  decide (g ∈ pyRange10 0 (pyInt (chartMaxP prices) + 10)) &&
    decide (chartMinP prices ≤ (g : ℚ)) &&
    decide (chartY ≤ gridY prices g ∧ gridY prices g ≤ chartY + chartHeight)

/-! ## Header boxes (`dashboard.py` lines 325–360)

Python truthiness drives the Now/Gas boxes: `None` and `0.0` are both
falsy. -/

abbrev Color := Nat × Nat × Nat

def BLUE : Color := (59, 130, 246)
def GREEN : Color := (34, 197, 94)
def YELLOW : Color := (234, 179, 8)
def RED : Color := (239, 68, 68)

/-- Source: `get_price_color`: threshold colour coding. -/
def getPriceColor (price : ℚ) : Color :=
  if price < 10 then GREEN
  else if price < 20 then BLUE
  else if price < 35 then YELLOW
  else RED

/-- Python truthiness of an optional float: `None` and `0.0` are falsy. -/
def pyTruthy : Option ℚ → Bool
  | none => false
  | some q => q != 0

/-- Source: `current_color = get_price_color(current_price) if current_price else
BLUE`. -/
def currentColor : Option ℚ → Color
  | none => BLUE
  | some q => if q != 0 then getPriceColor q else BLUE

/-- Source: `if current_price:` guard before drawing the Now number. -/
def drawsNowNumber (cp : Option ℚ) : Bool := pyTruthy cp

/-- Source: `if gas_today:` guard before drawing the gas number. -/
def drawsGasNumber (g : Option ℚ) : Bool := pyTruthy g

/-! ## Cache serialization (`dashboard.py` lines 124–131 and 176–183)

Saving copies each dict and replaces `timestamp` by
`timestamp.isoformat()` and `date` by `str(date)`; loading parses the
timestamp with `datetime.fromisoformat` and recomputes
`date = timestamp.date()`.  Strings are embedded as character lists. -/

/-- Decimal digit character for `d < 10`. -/
def digitChar (d : Nat) : Char := Char.ofNat (48 + d)

/-- Two-digit zero-padded decimal, faithful for values below 100. -/
def encode2 (n : Nat) : List Char := [digitChar (n / 10), digitChar (n % 10)]

/-- Four-digit zero-padded decimal, faithful for values below 10000. -/
def encode4 (n : Nat) : List Char := encode2 (n / 100) ++ encode2 (n % 100)

/-- Source: `datetime.isoformat()` for an aware datetime with zero microseconds:
`YYYY-MM-DDTHH:MM:SS±HH:MM`. -/
def DateTimeTz.isoformat (t : DateTimeTz) : List Char :=
  encode4 t.year ++ '-' :: (encode2 t.month ++ '-' :: (encode2 t.day ++
    'T' :: (encode2 t.hour ++ ':' :: (encode2 t.minute ++ ':' ::
    (encode2 t.second ++ (if t.tzNeg then '-' else '+') ::
    (encode2 t.tzH ++ ':' :: encode2 t.tzM))))))

/-- Source: `str(date)`: `YYYY-MM-DD`. -/
def Date.isoformat (d : Date) : List Char :=
  encode4 d.year ++ '-' :: (encode2 d.month ++ '-' :: encode2 d.day)

/-- Read two decimal digits. -/
def parse2 : List Char → Option (Nat × List Char)
  | c1 :: c2 :: rest =>
      if c1.isDigit && c2.isDigit
      then some ((c1.toNat - 48) * 10 + (c2.toNat - 48), rest)
      else none
  | _ => none

/-- Require a literal character. -/
def expect (c : Char) : List Char → Option (List Char)
  | d :: rest => if d = c then some rest else none
  | [] => none

/-- Read the UTC-offset sign. -/
def parseSign : List Char → Option (Bool × List Char)
  | '+' :: rest => some (false, rest)
  | '-' :: rest => some (true, rest)
  | _ => none

/-! Stages of `datetime.fromisoformat` on the fixed format `isoformat` produces for
aware datetimes, written as one parser stage per field or separator
(each stage carries the fields parsed so far). -/

/-- Last stage: two-digit offset minute, then end of input. -/
def pTzM (y1 y2 mo d h mi sec : Nat) (neg : Bool) (th : Nat)
    (s : List Char) : Option DateTimeTz :=
  (parse2 s).bind fun (tm, s) =>
    if s = [] then some ⟨y1 * 100 + y2, mo, d, h, mi, sec, neg, th, tm⟩
    else none

/-- Separator before the offset minute. -/
def pTzSep (y1 y2 mo d h mi sec : Nat) (neg : Bool) (th : Nat)
    (s : List Char) : Option DateTimeTz :=
  (expect ':' s).bind (pTzM y1 y2 mo d h mi sec neg th)

/-- Two-digit offset hour. -/
def pTzH (y1 y2 mo d h mi sec : Nat) (neg : Bool) (s : List Char) :
    Option DateTimeTz :=
  (parse2 s).bind fun (th, s) => pTzSep y1 y2 mo d h mi sec neg th s

/-- UTC-offset sign. -/
def pSign (y1 y2 mo d h mi sec : Nat) (s : List Char) : Option DateTimeTz :=
  (parseSign s).bind fun (neg, s) => pTzH y1 y2 mo d h mi sec neg s

/-- Two-digit second. -/
def pSec (y1 y2 mo d h mi : Nat) (s : List Char) : Option DateTimeTz :=
  (parse2 s).bind fun (sec, s) => pSign y1 y2 mo d h mi sec s

/-- Separator before the second. -/
def pSecSep (y1 y2 mo d h mi : Nat) (s : List Char) : Option DateTimeTz :=
  (expect ':' s).bind (pSec y1 y2 mo d h mi)

/-- Two-digit minute. -/
def pMin (y1 y2 mo d h : Nat) (s : List Char) : Option DateTimeTz :=
  (parse2 s).bind fun (mi, s) => pSecSep y1 y2 mo d h mi s

/-- Separator before the minute. -/
def pMinSep (y1 y2 mo d h : Nat) (s : List Char) : Option DateTimeTz :=
  (expect ':' s).bind (pMin y1 y2 mo d h)

/-- Two-digit hour. -/
def pHour (y1 y2 mo d : Nat) (s : List Char) : Option DateTimeTz :=
  (parse2 s).bind fun (h, s) => pMinSep y1 y2 mo d h s

/-- Date/time separator. -/
def pTSep (y1 y2 mo d : Nat) (s : List Char) : Option DateTimeTz :=
  (expect 'T' s).bind (pHour y1 y2 mo d)

/-- Two-digit day. -/
def pDay (y1 y2 mo : Nat) (s : List Char) : Option DateTimeTz :=
  (parse2 s).bind fun (d, s) => pTSep y1 y2 mo d s

/-- Separator before the day. -/
def pDaySep (y1 y2 mo : Nat) (s : List Char) : Option DateTimeTz :=
  (expect '-' s).bind (pDay y1 y2 mo)

/-- Two-digit month. -/
def pMo (y1 y2 : Nat) (s : List Char) : Option DateTimeTz :=
  (parse2 s).bind fun (mo, s) => pDaySep y1 y2 mo s

/-- Separator before the month. -/
def pMoSep (y1 y2 : Nat) (s : List Char) : Option DateTimeTz :=
  (expect '-' s).bind (pMo y1 y2)

/-- Second pair of year digits. -/
def pY2 (y1 : Nat) (s : List Char) : Option DateTimeTz :=
  (parse2 s).bind fun (y2, s) => pMoSep y1 y2 s

/-- Source: `datetime.fromisoformat` on the fixed `YYYY-MM-DDTHH:MM:SS±HH:MM`
format `isoformat` produces for aware datetimes. -/
def fromisoformat (s : List Char) : Option DateTimeTz :=
  (parse2 s).bind fun (y1, s) => pY2 y1 s

/-- One entry of the cache JSON array:
`{hour, minute, price, timestamp (ISO8601 string), date (ISO date string)}`. -/
structure CacheItem where
  hour : Nat
  minute : Nat
  price : ℚ
  timestamp : List Char
  date : List Char
deriving DecidableEq, Repr

/-- Serialization (`dashboard.py` lines 176–183): copy the dict,
`timestamp -> timestamp.isoformat()`, `date -> str(date)`. -/
def saveItem (p : PricePoint) : CacheItem :=
  ⟨p.hour, p.minute, p.price, p.timestamp.isoformat, p.date.isoformat⟩

/-- Cache reload (`dashboard.py` lines 124–131):
`item['timestamp'] = datetime.fromisoformat(item['timestamp'])`;
`item['date'] = item['timestamp'].date()`. -/
def loadItem (c : CacheItem) : Option PricePoint :=
  (fromisoformat c.timestamp).map
    (fun t => ⟨c.hour, c.minute, c.price, t, t.dateOf⟩)

/-- Serialize a whole series (the `cache_data` loop). -/
def saveCache (series : List PricePoint) : List CacheItem :=
  series.map saveItem

/-- Reload a whole cache file (the load loop; a parse failure raises and
is caught by the surrounding `try`, hence `Option`). -/
def loadCache : List CacheItem → Option (List PricePoint)
  | [] => some []
  | c :: cs =>
      match loadItem c, loadCache cs with
      | some p, some ps => some (p :: ps)
      | _, _ => none

/-- Field bounds under which `isoformat` is the fixed-width format above. -/
def DateTimeTz.wf (t : DateTimeTz) : Prop :=
  t.year < 10000 ∧ t.month < 100 ∧ t.day < 100 ∧ t.hour < 100 ∧
    t.minute < 100 ∧ t.second < 100 ∧ t.tzH < 100 ∧ t.tzM < 100

instance (t : DateTimeTz) : Decidable t.wf := by
  unfold DateTimeTz.wf
  infer_instance

/-! ## Concrete sample data -/

def sampleTz : DateTimeTz := ⟨2025, 10, 12, 0, 0, 0, false, 1, 0⟩
def sampleDate : Date := ⟨2025, 10, 12⟩
def otherDate : Date := ⟨2025, 10, 13⟩

/-- A price point on a given date (timestamp fields irrelevant to the
reconciler and chart claims). -/
def mkPtD (d : Date) (h m : Nat) (q : ℚ) : PricePoint :=
  ⟨h, m, q, sampleTz, d⟩

def mkPt (h m : Nat) (q : ℚ) : PricePoint := mkPtD sampleDate h m q

/-- A complete 48-point today series. -/
def today48 : List PricePoint :=
  (List.range 48).map (fun k => mkPt (k / 2) (k % 2 * 30) 10)

/-- A complete 48-point tomorrow series. -/
def tomorrow48 : List PricePoint :=
  (List.range 48).map (fun k => mkPtD otherDate (k / 2) (k % 2 * 30) 12)

/-! # Theorems -/

/-! ### List min/max lemmas -/

theorem foldl_min_le_init (l : List ℚ) (a : ℚ) : l.foldl min a ≤ a := by
  induction l generalizing a with
  | nil => simp
  | cons x xs ih =>
      calc (x :: xs).foldl min a = xs.foldl min (min a x) := rfl
        _ ≤ min a x := ih _
        _ ≤ a := min_le_left _ _

theorem foldl_min_le_mem {l : List ℚ} {x : ℚ} (hx : x ∈ l) (a : ℚ) :
    l.foldl min a ≤ x := by
  induction l generalizing a with
  | nil => cases hx
  | cons y ys ih =>
      rcases List.mem_cons.mp hx with h | h
      · subst h
        calc (x :: ys).foldl min a = ys.foldl min (min a x) := rfl
          _ ≤ min a x := foldl_min_le_init _ _
          _ ≤ x := min_le_right _ _
      · exact ih h (min a y)

theorem init_le_foldl_max (l : List ℚ) (a : ℚ) : a ≤ l.foldl max a := by
  induction l generalizing a with
  | nil => simp
  | cons x xs ih =>
      calc a ≤ max a x := le_max_left _ _
        _ ≤ xs.foldl max (max a x) := ih _
        _ = (x :: xs).foldl max a := rfl

theorem mem_le_foldl_max {l : List ℚ} {x : ℚ} (hx : x ∈ l) (a : ℚ) :
    x ≤ l.foldl max a := by
  induction l generalizing a with
  | nil => cases hx
  | cons y ys ih =>
      rcases List.mem_cons.mp hx with h | h
      · subst h
        calc x ≤ max a x := le_max_right _ _
          _ ≤ ys.foldl max (max a x) := init_le_foldl_max _ _
          _ = (x :: ys).foldl max a := rfl
      · exact ih h (max a y)

theorem listMin_le_mem {l : List ℚ} {x : ℚ} (hx : x ∈ l) : listMin l ≤ x := by
  cases l with
  | nil => cases hx
  | cons q qs =>
      rcases List.mem_cons.mp hx with h | h
      · subst h; exact foldl_min_le_init qs x
      · exact foldl_min_le_mem h q

theorem mem_le_listMax {l : List ℚ} {x : ℚ} (hx : x ∈ l) : x ≤ listMax l := by
  cases l with
  | nil => cases hx
  | cons q qs =>
      rcases List.mem_cons.mp hx with h | h
      · subst h; exact init_le_foldl_max qs x
      · exact mem_le_foldl_max h q

theorem chartMinP_le_mem {l : List ℚ} {x : ℚ} (hx : x ∈ l) :
    chartMinP l ≤ x :=
  le_trans (min_le_right _ _) (listMin_le_mem hx)

theorem chartMinP_le_chartMaxP {l : List ℚ} (hl : l ≠ []) :
    chartMinP l ≤ chartMaxP l := by
  cases l with
  | nil => exact absurd rfl hl
  | cons q qs =>
      exact le_trans (chartMinP_le_mem (List.mem_cons_self q qs))
        (mem_le_listMax (List.mem_cons_self q qs))

theorem priceRange_pos {l : List ℚ} (hl : l ≠ []) : 0 < priceRange l := by
  unfold priceRange
  by_cases h : chartMaxP l ≠ chartMinP l
  · rw [if_pos h]
    have hle := chartMinP_le_chartMaxP hl
    have : chartMinP l < chartMaxP l := lt_of_le_of_ne hle (Ne.symm h)
    linarith
  · rw [if_neg h]; norm_num

theorem minPrice_eq_listMin (agile : List PricePoint) (today : Date) :
    minPrice agile today =
      listMin ((allToday agile today).map (fun p => p.price)) := by
  cases h : (allToday agile today).map (fun p => p.price) with
  | nil => simp [minPrice, listMin, h]
  | cons q qs => simp [minPrice, listMin, h]

theorem maxPrice_eq_listMax (agile : List PricePoint) (today : Date) :
    maxPrice agile today =
      listMax ((allToday agile today).map (fun p => p.price)) := by
  cases h : (allToday agile today).map (fun p => p.price) with
  | nil => simp [maxPrice, listMax, h]
  | cons q qs => simp [maxPrice, listMax, h]

theorem find_unique_slot (l : List PricePoint) (nowH nowM : Nat)
    (hpair : l.Pairwise (fun a b => (a.hour, a.minute) ≠ (b.hour, b.minute)))
    {p : PricePoint} (hp : p ∈ l) (h1 : p.hour = nowH)
    (h2 : p.minute = slotMinute nowM) :
    l.find? (fun x => x.hour == nowH && x.minute == slotMinute nowM) =
      some p := by
  induction l with
  | nil => cases hp
  | cons a l ih =>
      obtain ⟨hhead, htail⟩ := List.pairwise_cons.mp hpair
      cases ha : (a.hour == nowH && a.minute == slotMinute nowM) with
      | true =>
          simp only [List.find?_cons, ha]
          rcases List.mem_cons.mp hp with h | h
          · rw [h]
          · exfalso
            simp only [Bool.and_eq_true, beq_iff_eq] at ha
            exact hhead p h (by rw [ha.1, ha.2, h1, h2])
      | false =>
          simp only [List.find?_cons, ha]
          rcases List.mem_cons.mp hp with h | h
          · rw [← h] at ha
            simp [h1, h2] at ha
          · exact ih htail h

/-- C1: the reconciler's display window.  The claim's "last 24 points of
today" and "tomorrow alone" branches do not match the code: `dashboard.py`
drops the *first* 24 points (`today_prices[24:]`), and with fewer than 24
today points it keeps all of today in front of tomorrow.  One today point
and one tomorrow point refute the claimed "tomorrow alone" branch. -/
theorem C1_counterexample :
    displayWindow [mkPt 0 0 5] [mkPt 0 0 7] ≠ [mkPt 0 0 7] := by decide

/-- C1 (amended): if `tomorrow` is non-empty and `len(today) >= 24`, the
display window is today with its first 24 points dropped followed by all
of tomorrow; if `tomorrow` is non-empty and `len(today) < 24`, it is all
of today followed by all of tomorrow; if `tomorrow` is empty, it is
today. -/
theorem C1_display_window (today tomorrow : List PricePoint) :
    (tomorrow ≠ [] → 24 ≤ today.length →
      displayWindow today tomorrow = today.drop 24 ++ tomorrow) ∧
    (tomorrow ≠ [] → today.length < 24 →
      displayWindow today tomorrow = today ++ tomorrow) ∧
    (tomorrow = [] → displayWindow today tomorrow = today) := by
  refine ⟨?_, ?_, ?_⟩
  · intro h1 h2
    unfold displayWindow trimToday
    rw [if_pos ⟨h1, h2⟩]
  · intro h1 h2
    unfold displayWindow trimToday
    rw [if_neg (fun hcon => absurd hcon.2 (by omega))]
  · intro h1
    subst h1
    simp [displayWindow, trimToday]

theorem C1_display_window_witness :
    displayWindow [mkPt 0 0 5] [mkPt 0 0 7] = [mkPt 0 0 5] ++ [mkPt 0 0 7] :=
  (C1_display_window [mkPt 0 0 5] [mkPt 0 0 7]).2.1 (by decide) (by decide)

/-- C2: the min and max statistics are computed over the complete,
untrimmed today series — tomorrow's points and the display-window trim
never enter them — and both are zero when the today series is empty. -/
theorem C2_stats_untrimmed (todayPts tomorrowPts : List PricePoint)
    (today : Date)
    (ht : ∀ p ∈ todayPts, p.date = today)
    (hm : ∀ p ∈ tomorrowPts, p.date ≠ today) :
    minPrice (todayPts ++ tomorrowPts) today =
      listMin (todayPts.map (fun p => p.price)) ∧
    maxPrice (todayPts ++ tomorrowPts) today =
      listMax (todayPts.map (fun p => p.price)) ∧
    (todayPts = [] →
      minPrice (todayPts ++ tomorrowPts) today = 0 ∧
      maxPrice (todayPts ++ tomorrowPts) today = 0) := by
  have hall : allToday (todayPts ++ tomorrowPts) today = todayPts := by
    unfold allToday
    rw [List.filter_append]
    have h1 : todayPts.filter (fun p => decide (p.date = today)) = todayPts :=
      List.filter_eq_self.mpr (fun a ha => by simp [ht a ha])
    have h2 : tomorrowPts.filter (fun p => decide (p.date = today)) = [] :=
      List.filter_eq_nil.mpr (fun a ha => by simp [hm a ha])
    rw [h1, h2, List.append_nil]
  refine ⟨?_, ?_, ?_⟩
  · rw [minPrice_eq_listMin, hall]
  · rw [maxPrice_eq_listMax, hall]
  · intro h
    subst h
    constructor
    · rw [minPrice_eq_listMin, hall]; rfl
    · rw [maxPrice_eq_listMax, hall]; rfl

theorem C2_stats_untrimmed_witness :
    minPrice ([mkPt 0 0 5, mkPt 0 30 3] ++ [mkPtD otherDate 0 0 1])
        sampleDate =
      listMin ([mkPt 0 0 5, mkPt 0 30 3].map (fun p => p.price)) :=
  (C2_stats_untrimmed [mkPt 0 0 5, mkPt 0 30 3] [mkPtD otherDate 0 0 1]
    sampleDate (by decide) (by decide)).1

/-- C3: the current price is the price of the today point whose
`(hour, minute)` equals `(now.hour, now.minute // 30 * 30)`, and it is
`None` exactly when no today point matches. -/
theorem C3_current_slot_price (agile : List PricePoint) (today : Date)
    (nowH nowM : Nat) :
    (currentPrice agile today nowH nowM = none ↔
      ∀ p ∈ allToday agile today,
        ¬(p.hour = nowH ∧ p.minute = slotMinute nowM)) ∧
    (∀ p ∈ allToday agile today,
      (allToday agile today).Pairwise
        (fun a b => (a.hour, a.minute) ≠ (b.hour, b.minute)) →
      p.hour = nowH → p.minute = slotMinute nowM →
      currentPrice agile today nowH nowM = some p.price) := by
  constructor
  · unfold currentPrice
    rw [Option.map_eq_none', List.find?_eq_none]
    constructor
    · intro h p hp hcon
      exact h p hp (by simp [hcon.1, hcon.2])
    · intro h p hp hcon
      simp only [Bool.and_eq_true, beq_iff_eq] at hcon
      exact h p hp ⟨hcon.1, hcon.2⟩
  · intro p hp hpair h1 h2
    unfold currentPrice
    rw [find_unique_slot (allToday agile today) nowH nowM hpair hp h1 h2]
    rfl

theorem C3_current_slot_price_witness :
    currentPrice [mkPt 14 0 10, mkPt 14 30 12] sampleDate 14 40 =
      some (mkPt 14 30 12).price :=
  (C3_current_slot_price [mkPt 14 0 10, mkPt 14 30 12] sampleDate 14 40).2
    (mkPt 14 30 12) (by decide) (by decide) (by decide) (by decide)

/-- C4: for a non-empty display window, `chart_min = min(0, min(prices))`
and `chart_max = max(prices)`; when they coincide the divisor is forced to
1, and the divisor is never zero. -/
theorem C4_chart_range (prices : List ℚ) (hne : prices ≠ []) :
    chartMinP prices = min 0 (listMin prices) ∧
    chartMaxP prices = listMax prices ∧
    (chartMinP prices = chartMaxP prices → priceRange prices = 1) ∧
    priceRange prices ≠ 0 := by
  refine ⟨rfl, rfl, ?_, (priceRange_pos hne).ne'⟩
  intro h
  unfold priceRange
  rw [if_neg (fun hcon => hcon h.symm)]

theorem C4_chart_range_witness : priceRange [(0 : ℚ)] = 1 :=
  (C4_chart_range [0] (by decide)).2.2.1 (by decide)

/-- C5: the claim's bar height `round((price - chart_min) / range *
chart_height)` does not match the code, which truncates with `int(...)`:
for the window `[10, 15]` the code's height is 86 while rounding to
nearest gives 87. -/
theorem C5_counterexample :
    barHeight [10, 15] 10 = 86 ∧
    round (((10 : ℚ) - chartMinP [10, 15]) / priceRange [10, 15] *
      (chartHeight : ℚ)) = 87 := by
  have hmin : chartMinP [10, 15] = 0 := by
    simp [chartMinP, listMin]
  have hmax : chartMaxP [10, 15] = 15 := by
    simp [chartMaxP, listMax]
    norm_num
  have hrange : priceRange [10, 15] = 15 := by
    rw [priceRange, if_pos (by rw [hmin, hmax]; norm_num), hmin, hmax]
    norm_num
  constructor
  · rw [barHeight, hmin, hrange, pyInt, if_pos (by norm_num [chartHeight])]
    rw [show ((10 : ℚ) - 0) / 15 * (chartHeight : ℚ) = 260 / 3 by
      norm_num [chartHeight]]
    rw [Int.floor_eq_iff]
    norm_num
  · rw [hmin, hrange]
    rw [show ((10 : ℚ) - 0) / 15 * (chartHeight : ℚ) = 260 / 3 by
      norm_num [chartHeight]]
    rw [round_eq]
    rw [Int.floor_eq_iff]
    norm_num

/-- C5 (amended): a bar's pixel height is the *floor* (Python `int()`
truncation of a non-negative value) of
`(price - chart_min) / range * chart_height`; the bar is drawn from
`chart_bottom - height` up to `chart_bottom`, with a fixed 2-pixel gap
taken from the bar's right edge. -/
theorem C5_bar_geometry (prices : List ℚ) (p : ℚ) (hp : p ∈ prices)
    (numBars i : Nat) :
    barHeight prices p =
      ⌊(p - chartMinP prices) / priceRange prices * (chartHeight : ℚ)⌋ ∧
    barTop prices p = barBottom - barHeight prices p ∧
    barRight numBars i = barX numBars i + (barWidth numBars : ℤ) - 2 := by
  have hne : prices ≠ [] := by
    intro h
    rw [h] at hp
    cases hp
  have h0 : (0 : ℚ) ≤
      (p - chartMinP prices) / priceRange prices * (chartHeight : ℚ) := by
    apply mul_nonneg
    · apply div_nonneg
      · linarith [chartMinP_le_mem hp]
      · exact le_of_lt (priceRange_pos hne)
    · norm_num [chartHeight]
  refine ⟨?_, ?_, rfl⟩
  · unfold barHeight pyInt
    rw [if_pos h0]
  · unfold barTop barBottom
    ring

theorem C5_bar_geometry_witness :
    barHeight [10, 15] 10 =
      ⌊((10 : ℚ) - chartMinP [10, 15]) / priceRange [10, 15] *
        (chartHeight : ℚ)⌋ :=
  (C5_bar_geometry [10, 15] 10 (by decide) 48 0).1

/-- C7: the current-slot dashed marker is emitted at bar `i` only if that
bar's `(hour, minute)` matches the live slot and `i` lies strictly before
the tomorrow start index; it is never emitted at a bar of the tomorrow
portion, even when that bar's slot coincides with the current slot. -/
theorem C7_marker_today_only (today tomorrow : List PricePoint)
    (nowH nowM : Nat) (i : Nat) :
    (markerAt today tomorrow nowH nowM i = true →
      ∃ p, (displayWindow today tomorrow).get? i = some p ∧
        p.hour = nowH ∧ p.minute = slotMinute nowM ∧
        i < tomorrowStartIdx today tomorrow) ∧
    (tomorrowStartIdx today tomorrow ≤ i →
      markerAt today tomorrow nowH nowM i = false) ∧
    (tomorrowStartIdx today tomorrow ≤ i →
      ∀ p, (displayWindow today tomorrow).get? i = some p →
        p ∈ tomorrow) := by
  refine ⟨?_, ?_, ?_⟩
  · intro hmark
    unfold markerAt at hmark
    cases hget : (displayWindow today tomorrow).get? i with
    | none => rw [hget] at hmark; cases hmark
    | some p =>
        rw [hget] at hmark
        simp only [Bool.and_eq_true, beq_iff_eq, decide_eq_true_eq] at hmark
        exact ⟨p, rfl, hmark.1.1, hmark.1.2, hmark.2⟩
  · intro h
    unfold markerAt
    cases hget : (displayWindow today tomorrow).get? i with
    | none => rfl
    | some p => simp [Nat.not_lt.mpr h]
  · intro h p hget
    unfold displayWindow at hget
    rw [List.get?_append_right h] at hget
    exact List.get?_mem hget

theorem C7_marker_today_only_witness :
    markerAt [mkPt 14 0 10] [mkPtD otherDate 14 0 12] 14 5 1 = false :=
  (C7_marker_today_only [mkPt 14 0 10] [mkPtD otherDate 14 0 12]
    14 5 1).2.1 (by decide)

/-- C9: with 48 today points and 48 tomorrow points the claim's "exactly
48 entries" is false — the display window keeps the last 24 of today plus
all 48 of tomorrow, 72 entries. -/
theorem C9_counterexample :
    (displayWindow today48 tomorrow48).length = 72 ∧
    ¬(displayWindow today48 tomorrow48).length = 48 := by decide

/-- C9 (amended): when today has exactly 48 points and tomorrow has
exactly 48 points, the display window is the last 24 points of today
followed by all of tomorrow — 72 entries — and the current-slot marker
can appear only within the first 24 entries. -/
theorem C9_window_48_48 (today tomorrow : List PricePoint)
    (ht : today.length = 48) (hm : tomorrow.length = 48)
    (nowH nowM : Nat) :
    displayWindow today tomorrow = today.drop 24 ++ tomorrow ∧
    today.drop 24 = today.drop (today.length - 24) ∧
    (displayWindow today tomorrow).length = 72 ∧
    (∀ i, markerAt today tomorrow nowH nowM i = true → i < 24) := by
  have hne : tomorrow ≠ [] := by
    intro h
    rw [h] at hm
    cases hm
  have hwin : displayWindow today tomorrow = today.drop 24 ++ tomorrow := by
    unfold displayWindow trimToday
    rw [if_pos ⟨hne, by omega⟩]
  have hidx : tomorrowStartIdx today tomorrow = 24 := by
    unfold tomorrowStartIdx trimToday
    rw [if_pos ⟨hne, by omega⟩]
    simp [ht]
  refine ⟨hwin, by rw [ht], ?_, ?_⟩
  · rw [hwin]
    simp [ht, hm]
  · intro i hmark
    unfold markerAt at hmark
    cases hget : (displayWindow today tomorrow).get? i with
    | none => rw [hget] at hmark; cases hmark
    | some p =>
        rw [hget] at hmark
        simp only [Bool.and_eq_true, decide_eq_true_eq] at hmark
        rw [hidx] at hmark
        exact hmark.2

theorem C9_window_48_48_witness :
    (displayWindow today48 tomorrow48).length = 72 :=
  (C9_window_48_48 today48 tomorrow48 (by decide) (by decide) 14 0).2.2.1

/-- C10: a current price of exactly `0.0` is falsy in Python, so the Now
box falls back to the default blue and no price number is drawn; a today
gas price of exactly `0.0` is likewise omitted from the gas box. -/
theorem C10_zero_price_falsy (agile : List PricePoint) (today : Date)
    (nowH nowM : Nat) (gasToday : Option ℚ)
    (hc : currentPrice agile today nowH nowM = some 0)
    (hg : gasToday = some 0) :
    currentColor (currentPrice agile today nowH nowM) = BLUE ∧
    drawsNowNumber (currentPrice agile today nowH nowM) = false ∧
    drawsGasNumber gasToday = false := by
  rw [hc, hg]
  exact ⟨by decide, by decide, by decide⟩

theorem C10_zero_price_falsy_witness :
    currentColor (currentPrice [mkPt 14 0 0] sampleDate 14 10) = BLUE ∧
    drawsNowNumber (currentPrice [mkPt 14 0 0] sampleDate 14 10) = false ∧
    drawsGasNumber (some 0) = false :=
  C10_zero_price_falsy [mkPt 14 0 0] sampleDate 14 10 (some 0)
    (by decide) rfl

/-! ### Gridline lemmas -/

theorem mem_pyRange10 {a b g : ℤ} :
    g ∈ pyRange10 a b ↔
      ∃ k : Nat, k < (b - a + 9).toNat / 10 ∧ a + 10 * (k : ℤ) = g := by
  unfold pyRange10
  constructor
  · intro hm
    obtain ⟨k, hk, hfk⟩ := List.mem_map.mp hm
    exact ⟨k, List.mem_range.mp hk, hfk⟩
  · rintro ⟨k, hk, hfk⟩
    exact List.mem_map.mpr ⟨k, List.mem_range.mpr hk, hfk⟩

theorem pyInt_bounds {q : ℚ} (h0 : 0 ≤ q) (h1 : q ≤ (chartHeight : ℚ)) :
    0 ≤ pyInt q ∧ pyInt q ≤ chartHeight := by
  unfold pyInt
  rw [if_pos h0]
  refine ⟨Int.floor_nonneg.mpr h0, ?_⟩
  calc ⌊q⌋ ≤ ⌊((chartHeight : ℤ) : ℚ)⌋ := Int.floor_le_floor h1
    _ = chartHeight := Int.floor_intCast _

theorem chartHeight_cast_nonneg : (0 : ℚ) ≤ (chartHeight : ℚ) := by
  norm_num [chartHeight]

theorem gridY_in_bounds {prices : List ℚ} (hne : prices ≠ []) {g : ℤ}
    (hlo : chartMinP prices ≤ (g : ℚ))
    (hhi : (g : ℚ) ≤ chartMaxP prices) :
    chartY ≤ gridY prices g ∧ gridY prices g ≤ chartY + chartHeight := by
  have hq0 : (0 : ℚ) ≤
      ((g : ℚ) - chartMinP prices) / priceRange prices * (chartHeight : ℚ) :=
    mul_nonneg (div_nonneg (by linarith) (priceRange_pos hne).le)
      chartHeight_cast_nonneg
  have hq1 : ((g : ℚ) - chartMinP prices) / priceRange prices *
      (chartHeight : ℚ) ≤ (chartHeight : ℚ) := by
    by_cases hc : chartMaxP prices ≠ chartMinP prices
    · have hr : priceRange prices = chartMaxP prices - chartMinP prices := by
        unfold priceRange
        rw [if_pos hc]
      have hrpos := priceRange_pos hne
      have hratio : ((g : ℚ) - chartMinP prices) / priceRange prices ≤ 1 := by
        rw [div_le_one hrpos, hr]
        linarith
      calc ((g : ℚ) - chartMinP prices) / priceRange prices *
            (chartHeight : ℚ) ≤ 1 * (chartHeight : ℚ) :=
            mul_le_mul_of_nonneg_right hratio chartHeight_cast_nonneg
        _ = (chartHeight : ℚ) := one_mul _
    · push_neg at hc
      have hg : (g : ℚ) = chartMinP prices :=
        le_antisymm (hc ▸ hhi) hlo
      rw [hg, sub_self, zero_div, zero_mul]
      exact chartHeight_cast_nonneg
  obtain ⟨hb1, hb2⟩ := pyInt_bounds hq0 hq1
  unfold gridY
  omega

/-- C6: the continuous variant generates gridline levels only from 0
upward (`range(0, int(chart_max) + 10, 10)`), so the in-range negative
level −10 of the window `[-15, 5]` is never emitted, refuting the claimed
"emitted if and only if chart_min <= v <= chart_max". -/
theorem C6_counterexample :
    chartMinP [-15, 5] ≤ (-10 : ℚ) ∧ (-10 : ℚ) ≤ chartMaxP [-15, 5] ∧
    dashGridEmitted [-15, 5] (-10) = false := by
  have hmin : chartMinP [-15, 5] = -15 := by
    simp [chartMinP, listMin]
    norm_num
  have hmax : chartMaxP [-15, 5] = 5 := by
    simp [chartMaxP, listMax]
    norm_num
  refine ⟨by rw [hmin]; norm_num, by rw [hmax]; norm_num, ?_⟩
  unfold dashGridEmitted
  have hmem : (-10 : ℤ) ∉ pyRange10 0 (pyInt (chartMaxP [-15, 5]) + 10) := by
    intro hm
    obtain ⟨k, _, hgk⟩ := mem_pyRange10.mp hm
    omega
  simp [hmem]

/-- C6 (amended): in the snapshot variant a gridline at integer level `v`
is emitted iff `v` is a multiple of 10 with `chart_min <= v <=
chart_max` — in particular negative in-range multiples of 10 are emitted
for windows with negative prices; the continuous variant generates levels
from 0 only, so it never emits a negative gridline. -/
theorem C6_gridlines (prices : List ℚ) (hne : prices ≠ []) (g : ℤ) :
    (snapGridEmitted prices g = true ↔
      (10 : ℤ) ∣ g ∧ chartMinP prices ≤ (g : ℚ) ∧
        (g : ℚ) ≤ chartMaxP prices) ∧
    (∀ v : ℤ, v < 0 → dashGridEmitted prices v = false) := by
  constructor
  · unfold snapGridEmitted
    simp only [Bool.and_eq_true, decide_eq_true_eq]
    constructor
    · rintro ⟨⟨hmem, hlo, hhi⟩, _⟩
      refine ⟨?_, hlo, hhi⟩
      obtain ⟨k, _, hgk⟩ := mem_pyRange10.mp hmem
      refine ⟨⌊chartMinP prices / 10⌋ + k, ?_⟩
      unfold minGrid at hgk
      omega
    · rintro ⟨⟨c, hc⟩, hlo, hhi⟩
      refine ⟨⟨?_, hlo, hhi⟩, gridY_in_bounds hne hlo hhi⟩
      have hA : ((minGrid prices : ℤ) : ℚ) ≤ chartMinP prices := by
        unfold minGrid
        push_cast
        have hfl := Int.floor_le (chartMinP prices / 10)
        have h10 : (0 : ℚ) ≤ 10 := by norm_num
        nlinarith
      have hB : chartMaxP prices < ((maxGrid prices : ℤ) : ℚ) := by
        unfold maxGrid
        push_cast
        have hfl := Int.lt_floor_add_one (chartMaxP prices / 10)
        nlinarith
      have h1 : minGrid prices ≤ g := by
        have := le_trans hA hlo
        exact_mod_cast this
      have h2 : g < maxGrid prices := by
        have := lt_of_le_of_lt hhi hB
        exact_mod_cast this
      rw [mem_pyRange10]
      have hAd : minGrid prices = 10 * ⌊chartMinP prices / 10⌋ := by
        unfold minGrid
        ring
      refine ⟨(c - ⌊chartMinP prices / 10⌋).toNat, ?_, ?_⟩ <;> omega
  · intro v hv
    unfold dashGridEmitted
    have hmem : v ∉ pyRange10 0 (pyInt (chartMaxP prices) + 10) := by
      intro hm
      obtain ⟨k, _, hgk⟩ := mem_pyRange10.mp hm
      omega
    simp [hmem]

theorem C6_gridlines_witness :
    snapGridEmitted [-15, 5] (-10) = true := by
  have hmin : chartMinP [-15, 5] = -15 := by
    simp [chartMinP, listMin]
    norm_num
  have hmax : chartMaxP [-15, 5] = 5 := by
    simp [chartMaxP, listMax]
    norm_num
  exact ((C6_gridlines [-15, 5] (by decide) (-10)).1).mpr
    ⟨⟨-1, by norm_num⟩, by rw [hmin]; norm_num, by rw [hmax]; norm_num⟩

/-! ### Serialization lemmas -/

theorem digitChar_spec :
    ∀ d : Nat, d < 10 →
      ((digitChar d).isDigit = true ∧ (digitChar d).toNat - 48 = d) := by
  decide

theorem parse2_encode2 {n : Nat} (hn : n < 100) (rest : List Char) :
    parse2 (encode2 n ++ rest) = some (n, rest) := by
  have h1 := digitChar_spec (n / 10) (by omega)
  have h2 := digitChar_spec (n % 10) (by omega)
  show parse2 (digitChar (n / 10) :: digitChar (n % 10) :: rest) = _
  simp only [parse2, h1.1, h2.1, Bool.and_self, if_true]
  rw [h1.2, h2.2]
  have : n / 10 * 10 + n % 10 = n := by omega
  rw [this]

theorem expect_cons (c : Char) (r : List Char) :
    expect c (c :: r) = some r := by
  simp [expect]

theorem parseSign_plus (r : List Char) : parseSign ('+' :: r) = some (false, r) := rfl

theorem parseSign_minus (r : List Char) : parseSign ('-' :: r) = some (true, r) := rfl

theorem pTzM_spec (y1 y2 mo d h mi sec : Nat) (neg : Bool) (th : Nat)
    {tm : Nat} (htm : tm < 100) :
    pTzM y1 y2 mo d h mi sec neg th (encode2 tm ++ ([] : List Char)) =
      some ⟨y1 * 100 + y2, mo, d, h, mi, sec, neg, th, tm⟩ := by
  unfold pTzM
  rw [parse2_encode2 htm]
  rfl

theorem pTzSep_spec (y1 y2 mo d h mi sec : Nat) (neg : Bool) (th : Nat)
    {tm : Nat} (htm : tm < 100) :
    pTzSep y1 y2 mo d h mi sec neg th
      (':' :: (encode2 tm ++ ([] : List Char))) =
      some ⟨y1 * 100 + y2, mo, d, h, mi, sec, neg, th, tm⟩ := by
  unfold pTzSep
  rw [expect_cons]
  exact pTzM_spec y1 y2 mo d h mi sec neg th htm

theorem pTzH_spec (y1 y2 mo d h mi sec : Nat) (neg : Bool)
    {th tm : Nat} (hth : th < 100) (htm : tm < 100) :
    pTzH y1 y2 mo d h mi sec neg
      (encode2 th ++ (':' :: (encode2 tm ++ ([] : List Char)))) =
      some ⟨y1 * 100 + y2, mo, d, h, mi, sec, neg, th, tm⟩ := by
  unfold pTzH
  rw [parse2_encode2 hth]
  exact pTzSep_spec y1 y2 mo d h mi sec neg th htm

theorem pSign_spec (y1 y2 mo d h mi sec : Nat) (neg : Bool)
    {th tm : Nat} (hth : th < 100) (htm : tm < 100) :
    pSign y1 y2 mo d h mi sec
      ((if neg then '-' else '+') ::
        (encode2 th ++ (':' :: (encode2 tm ++ ([] : List Char))))) =
      some ⟨y1 * 100 + y2, mo, d, h, mi, sec, neg, th, tm⟩ := by
  cases neg with
  | false =>
      rw [if_neg Bool.false_ne_true]
      unfold pSign
      rw [parseSign_plus]
      exact pTzH_spec y1 y2 mo d h mi sec false hth htm
  | true =>
      rw [if_pos rfl]
      unfold pSign
      rw [parseSign_minus]
      exact pTzH_spec y1 y2 mo d h mi sec true hth htm

theorem pSec_spec (y1 y2 mo d h mi : Nat) {sec : Nat} (neg : Bool)
    {th tm : Nat} (hs : sec < 100) (hth : th < 100) (htm : tm < 100) :
    pSec y1 y2 mo d h mi
      (encode2 sec ++ ((if neg then '-' else '+') ::
        (encode2 th ++ (':' :: (encode2 tm ++ ([] : List Char)))))) =
      some ⟨y1 * 100 + y2, mo, d, h, mi, sec, neg, th, tm⟩ := by
  unfold pSec
  rw [parse2_encode2 hs]
  exact pSign_spec y1 y2 mo d h mi sec neg hth htm

theorem pSecSep_spec (y1 y2 mo d h mi : Nat) {sec : Nat} (neg : Bool)
    {th tm : Nat} (hs : sec < 100) (hth : th < 100) (htm : tm < 100) :
    pSecSep y1 y2 mo d h mi
      (':' :: (encode2 sec ++ ((if neg then '-' else '+') ::
        (encode2 th ++ (':' :: (encode2 tm ++ ([] : List Char))))))) =
      some ⟨y1 * 100 + y2, mo, d, h, mi, sec, neg, th, tm⟩ := by
  unfold pSecSep
  rw [expect_cons]
  exact pSec_spec y1 y2 mo d h mi neg hs hth htm

theorem pMin_spec (y1 y2 mo d h : Nat) {mi sec : Nat} (neg : Bool)
    {th tm : Nat} (hmi : mi < 100) (hs : sec < 100) (hth : th < 100)
    (htm : tm < 100) :
    pMin y1 y2 mo d h
      (encode2 mi ++ (':' :: (encode2 sec ++
        ((if neg then '-' else '+') ::
        (encode2 th ++ (':' :: (encode2 tm ++ ([] : List Char)))))))) =
      some ⟨y1 * 100 + y2, mo, d, h, mi, sec, neg, th, tm⟩ := by
  unfold pMin
  rw [parse2_encode2 hmi]
  exact pSecSep_spec y1 y2 mo d h mi neg hs hth htm

theorem pMinSep_spec (y1 y2 mo d h : Nat) {mi sec : Nat} (neg : Bool)
    {th tm : Nat} (hmi : mi < 100) (hs : sec < 100) (hth : th < 100)
    (htm : tm < 100) :
    pMinSep y1 y2 mo d h
      (':' :: (encode2 mi ++ (':' :: (encode2 sec ++
        ((if neg then '-' else '+') ::
        (encode2 th ++ (':' :: (encode2 tm ++ ([] : List Char))))))))) =
      some ⟨y1 * 100 + y2, mo, d, h, mi, sec, neg, th, tm⟩ := by
  unfold pMinSep
  rw [expect_cons]
  exact pMin_spec y1 y2 mo d h neg hmi hs hth htm

theorem pHour_spec (y1 y2 mo d : Nat) {h mi sec : Nat} (neg : Bool)
    {th tm : Nat} (hh : h < 100) (hmi : mi < 100) (hs : sec < 100)
    (hth : th < 100) (htm : tm < 100) :
    pHour y1 y2 mo d
      (encode2 h ++ (':' :: (encode2 mi ++ (':' :: (encode2 sec ++
        ((if neg then '-' else '+') ::
        (encode2 th ++ (':' :: (encode2 tm ++ ([] : List Char)))))))))) =
      some ⟨y1 * 100 + y2, mo, d, h, mi, sec, neg, th, tm⟩ := by
  unfold pHour
  rw [parse2_encode2 hh]
  exact pMinSep_spec y1 y2 mo d h neg hmi hs hth htm

theorem pTSep_spec (y1 y2 mo d : Nat) {h mi sec : Nat} (neg : Bool)
    {th tm : Nat} (hh : h < 100) (hmi : mi < 100) (hs : sec < 100)
    (hth : th < 100) (htm : tm < 100) :
    pTSep y1 y2 mo d
      ('T' :: (encode2 h ++ (':' :: (encode2 mi ++ (':' :: (encode2 sec ++
        ((if neg then '-' else '+') ::
        (encode2 th ++ (':' :: (encode2 tm ++ ([] : List Char))))))))))) =
      some ⟨y1 * 100 + y2, mo, d, h, mi, sec, neg, th, tm⟩ := by
  unfold pTSep
  rw [expect_cons]
  exact pHour_spec y1 y2 mo d neg hh hmi hs hth htm

theorem pDay_spec (y1 y2 mo : Nat) {d h mi sec : Nat} (neg : Bool)
    {th tm : Nat} (hd : d < 100) (hh : h < 100) (hmi : mi < 100)
    (hs : sec < 100) (hth : th < 100) (htm : tm < 100) :
    pDay y1 y2 mo
      (encode2 d ++ ('T' :: (encode2 h ++ (':' :: (encode2 mi ++ (':' ::
        (encode2 sec ++ ((if neg then '-' else '+') :: (encode2 th ++ (':'
        :: (encode2 tm ++ ([] : List Char)))))))))))) =
      some ⟨y1 * 100 + y2, mo, d, h, mi, sec, neg, th, tm⟩ := by
  unfold pDay
  rw [parse2_encode2 hd]
  exact pTSep_spec y1 y2 mo d neg hh hmi hs hth htm

theorem pDaySep_spec (y1 y2 mo : Nat) {d h mi sec : Nat} (neg : Bool)
    {th tm : Nat} (hd : d < 100) (hh : h < 100) (hmi : mi < 100)
    (hs : sec < 100) (hth : th < 100) (htm : tm < 100) :
    pDaySep y1 y2 mo
      ('-' :: (encode2 d ++ ('T' :: (encode2 h ++ (':' :: (encode2 mi ++
        (':' :: (encode2 sec ++ ((if neg then '-' else '+') :: (encode2 th
        ++ (':' :: (encode2 tm ++ ([] : List Char))))))))))))) =
      some ⟨y1 * 100 + y2, mo, d, h, mi, sec, neg, th, tm⟩ := by
  unfold pDaySep
  rw [expect_cons]
  exact pDay_spec y1 y2 mo neg hd hh hmi hs hth htm

theorem pMo_spec (y1 y2 : Nat) {mo d h mi sec : Nat} (neg : Bool)
    {th tm : Nat} (hmo : mo < 100) (hd : d < 100) (hh : h < 100)
    (hmi : mi < 100) (hs : sec < 100) (hth : th < 100) (htm : tm < 100) :
    pMo y1 y2
      (encode2 mo ++ ('-' :: (encode2 d ++ ('T' :: (encode2 h ++ (':' ::
        (encode2 mi ++ (':' :: (encode2 sec ++ ((if neg then '-' else '+')
        :: (encode2 th ++ (':' :: (encode2 tm ++ ([] : List
        Char)))))))))))))) =
      some ⟨y1 * 100 + y2, mo, d, h, mi, sec, neg, th, tm⟩ := by
  unfold pMo
  rw [parse2_encode2 hmo]
  exact pDaySep_spec y1 y2 mo neg hd hh hmi hs hth htm

theorem pMoSep_spec (y1 y2 : Nat) {mo d h mi sec : Nat} (neg : Bool)
    {th tm : Nat} (hmo : mo < 100) (hd : d < 100) (hh : h < 100)
    (hmi : mi < 100) (hs : sec < 100) (hth : th < 100) (htm : tm < 100) :
    pMoSep y1 y2
      ('-' :: (encode2 mo ++ ('-' :: (encode2 d ++ ('T' :: (encode2 h ++
        (':' :: (encode2 mi ++ (':' :: (encode2 sec ++ ((if neg then '-'
        else '+') :: (encode2 th ++ (':' :: (encode2 tm ++ ([] : List
        Char))))))))))))))) =
      some ⟨y1 * 100 + y2, mo, d, h, mi, sec, neg, th, tm⟩ := by
  unfold pMoSep
  rw [expect_cons]
  exact pMo_spec y1 y2 neg hmo hd hh hmi hs hth htm

theorem pY2_spec (y1 : Nat) {y2 mo d h mi sec : Nat} (neg : Bool)
    {th tm : Nat} (hy2 : y2 < 100) (hmo : mo < 100) (hd : d < 100)
    (hh : h < 100) (hmi : mi < 100) (hs : sec < 100) (hth : th < 100)
    (htm : tm < 100) :
    pY2 y1
      (encode2 y2 ++ ('-' :: (encode2 mo ++ ('-' :: (encode2 d ++ ('T' ::
        (encode2 h ++ (':' :: (encode2 mi ++ (':' :: (encode2 sec ++ ((if
        neg then '-' else '+') :: (encode2 th ++ (':' :: (encode2 tm ++
        ([] : List Char)))))))))))))))) =
      some ⟨y1 * 100 + y2, mo, d, h, mi, sec, neg, th, tm⟩ := by
  unfold pY2
  rw [parse2_encode2 hy2]
  exact pMoSep_spec y1 y2 neg hmo hd hh hmi hs hth htm

theorem fromisoformat_encode {y1 y2 mo d h mi sec : Nat} (neg : Bool)
    {th tm : Nat} (hy1 : y1 < 100) (hy2 : y2 < 100) (hmo : mo < 100)
    (hd : d < 100) (hh : h < 100) (hmi : mi < 100) (hs : sec < 100)
    (hth : th < 100) (htm : tm < 100) :
    fromisoformat
      (encode2 y1 ++ (encode2 y2 ++ ('-' :: (encode2 mo ++ ('-' ::
        (encode2 d ++ ('T' :: (encode2 h ++ (':' :: (encode2 mi ++ (':' ::
        (encode2 sec ++ ((if neg then '-' else '+') :: (encode2 th ++ (':'
        :: (encode2 tm ++ ([] : List Char))))))))))))))))) =
      some ⟨y1 * 100 + y2, mo, d, h, mi, sec, neg, th, tm⟩ := by
  unfold fromisoformat
  rw [parse2_encode2 hy1]
  exact pY2_spec y1 neg hy2 hmo hd hh hmi hs hth htm

theorem fromisoformat_isoformat (t : DateTimeTz) (ht : t.wf) :
    fromisoformat t.isoformat = some t := by
  obtain ⟨hy, hmo, hd, hh, hmi, hs, hth, htm⟩ := ht
  have e : t.isoformat =
      encode2 (t.year / 100) ++ (encode2 (t.year % 100) ++ ('-' ::
        (encode2 t.month ++ ('-' :: (encode2 t.day ++ ('T' ::
        (encode2 t.hour ++ (':' :: (encode2 t.minute ++ (':' ::
        (encode2 t.second ++ ((if t.tzNeg then '-' else '+') ::
        (encode2 t.tzH ++ (':' ::
          (encode2 t.tzM ++ ([] : List Char)))))))))))))))) := by
    simp [DateTimeTz.isoformat, encode4]
  rw [e, fromisoformat_encode t.tzNeg (show t.year / 100 < 100 by omega)
    (show t.year % 100 < 100 by omega) hmo hd hh hmi hs hth htm]
  rw [show t.year / 100 * 100 + t.year % 100 = t.year by omega]

/-- C8: serializing a series to the cache format (ISO timestamp and date
strings) and reloading it yields an equal series, point for point, for
any non-empty series whose points satisfy `date == timestamp.date()`. -/
theorem C8_cache_roundtrip (series : List PricePoint)
    (hne : series ≠ [])
    (hwf : ∀ p ∈ series, p.timestamp.wf)
    (hdate : ∀ p ∈ series, p.date = p.timestamp.dateOf) :
    loadCache (saveCache series) = some series := by
  clear hne
  induction series with
  | nil => rfl
  | cons p rest ih =>
      have hp : loadItem (saveItem p) = some p := by
        simp only [loadItem, saveItem]
        rw [fromisoformat_isoformat p.timestamp
          (hwf p (List.mem_cons_self p rest))]
        rw [Option.map_some']
        rw [← hdate p (List.mem_cons_self p rest)]
      have hrest : loadCache (saveCache rest) = some rest :=
        ih (fun q hq => hwf q (List.mem_cons_of_mem p hq))
          (fun q hq => hdate q (List.mem_cons_of_mem p hq))
      show loadCache (saveItem p :: saveCache rest) = _
      rw [loadCache, hp, hrest]

theorem C8_cache_roundtrip_witness :
    loadCache (saveCache [mkPt 14 30 (43 / 2)]) =
      some [mkPt 14 30 (43 / 2)] :=
  C8_cache_roundtrip [mkPt 14 30 (43 / 2)] (by decide) (by decide)
    (by decide)

end Octopus
